import Mathlib

/-!
Shallow embedding of the sentiment trading bot (trading-service/main.py) and
proofs about its aggregation, decision, execution and persistence logic.

Scores, weights and prices are modelled as rationals; Python dictionaries as
association lists; the Redis cache as a function from symbol and source to the
list of cache entries (in key order); raised exceptions of external calls as
`Except` values supplied by the environment.
-/

/-- Process-wide defaults from environment variables (class Config in main.py):
`MAX_POSITION_SIZE` and `SENTIMENT_THRESHOLD`. -/
structure EnvConfig where
  max_position_size : ℚ
  sentiment_threshold : ℚ
  deriving DecidableEq

/-- A per-symbol entry of the trading-config document (trading.symbols.<symbol>):
the three optional fields the trading service reads. -/
structure SymbolConfig where
  weights : Option (List (String × ℚ))
  sentiment_threshold : Option ℚ
  max_position_size : Option ℚ
  deriving DecidableEq

/-- Python falsiness of the symbol-config dict: `if not symbol_config` is true
exactly when the dict is empty, i.e. none of its fields are present. -/
def SymbolConfig.isEmpty (c : SymbolConfig) : Bool :=
  c.weights.isNone && c.sentiment_threshold.isNone && c.max_position_size.isNone

/-- The trading-config document (load_trading_config): the per-symbol entries
and the process-wide sentiment weights (trading.sentiment_weights). -/
structure TradingConfig where
  symbols : List (String × SymbolConfig)
  sentiment_weights : List (String × ℚ)
  deriving DecidableEq

/-- `config_data.get("trading").get("symbols").get(symbol, ...)`: association
lookup of the per-symbol entry. -/
def lookupSymbolCfg (cfg : TradingConfig) (symbol : String) : Option SymbolConfig :=
  (cfg.symbols.find? (fun p => p.1 == symbol)).map Prod.snd

/-- The Redis cache contents: for a symbol and a source, the entries matching
`sentiment:<symbol>:<source>:*` in key order; `some q` is an entry whose
`sentiment_score` field parses to the float `q`, `none` a malformed entry. -/
def RedisStore : Type := String → String → List (Option ℚ)

/-- The well-formed scores among the first 50 cache entries for a symbol and
source (`keys[:50]`, then each parseable `sentiment_score`). -/
def fetchedScores (store : RedisStore) (symbol source : String) : List ℚ :=
  ((store symbol source).take 50).filterMap id

/-- One iteration of the source loop in aggregate_sentiment (lines 137-156):
the accumulator is (total_weighted_score, total_weight, source_count); a source
with no well-formed observation is skipped, otherwise the arithmetic mean of
its scores times its weight is accumulated. -/
def aggStep (store : RedisStore) (symbol : String) (acc : ℚ × ℚ × ℕ)
    (sw : String × ℚ) : ℚ × ℚ × ℕ :=
  let scores := fetchedScores store symbol sw.1
  if scores.isEmpty then acc
  else (acc.1 + (scores.sum / (scores.length : ℚ)) * sw.2, acc.2.1 + sw.2, acc.2.2 + 1)

/-- The tail of aggregate_sentiment once the effective weights are fixed
(lines 133-163): fold the source loop and divide iff total_weight > 0. -/
def aggregateWithWeights (weights : List (String × ℚ)) (store : RedisStore)
    (symbol : String) : Option ℚ :=
  let r := weights.foldl (aggStep store symbol) (0, 0, 0)
  if 0 < r.2.1 then some (r.1 / r.2.1) else none

/-- aggregate_sentiment (main.py lines 116-167): none when the symbol has no
(or an empty) config entry, when Redis is unavailable, or when no configured
source contributes weight; otherwise the weighted score. The symbol entry's
`weights` field falls back to the process-wide sentiment weights. -/
def aggregate_sentiment (cfg : TradingConfig) (redis : Option RedisStore)
    (symbol : String) : Option ℚ :=
  match lookupSymbolCfg cfg symbol with
  | none => none
  | some sc =>
    if sc.isEmpty then none
    else
      match redis with
      | none => none
      | some store =>
        aggregateWithWeights (sc.weights.getD cfg.sentiment_weights) store symbol

/-- `symbol_config.get("sentiment_threshold", config.sentiment_threshold)`
(line 350): per-symbol threshold with process-wide fallback; no emptiness
check on this path. -/
def thresholdFor (cfg : TradingConfig) (env : EnvConfig) (symbol : String) : ℚ :=
  match lookupSymbolCfg cfg symbol with
  | none => env.sentiment_threshold
  | some sc => sc.sentiment_threshold.getD env.sentiment_threshold

/-- `symbol_config.get("max_position_size", config.max_position_size)`
(lines 214 and 357): per-symbol notional cap with process-wide fallback. -/
def maxPositionSizeFor (cfg : TradingConfig) (env : EnvConfig) (symbol : String) : ℚ :=
  match lookupSymbolCfg cfg symbol with
  | none => env.max_position_size
  | some sc => sc.max_position_size.getD env.max_position_size

/-- Python `int()` applied to a rational: truncation toward zero. -/
def pyint (x : ℚ) : ℤ :=
  if 0 ≤ x then ⌊x⌋ else ⌈x⌉

/-- The spec's weighted sum: `source_score * weight`, summed only over sources
that produced at least one well-formed observation, where `source_score` is the
arithmetic mean of the source's fetched scores. Written to follow the spec
wording, to be compared with the fold inside aggregate_sentiment. -/
def specWeightedSum (store : RedisStore) (symbol : String) : List (String × ℚ) → ℚ
  | [] => 0
  | sw :: rest =>
    let scores := fetchedScores store symbol sw.1
    (if scores.isEmpty then 0 else (scores.sum / (scores.length : ℚ)) * sw.2) +
      specWeightedSum store symbol rest

/-- The spec's weight sum: weights summed only over sources that produced at
least one well-formed observation. -/
def specWeightSum (store : RedisStore) (symbol : String) : List (String × ℚ) → ℚ
  | [] => 0
  | sw :: rest =>
    let scores := fetchedScores store symbol sw.1
    (if scores.isEmpty then 0 else sw.2) + specWeightSum store symbol rest

/-- A row of the `trades` table, with the columns store_trade writes. -/
structure TradeRow where
  symbol : String
  side : String
  quantity : ℤ
  price : ℚ
  total_amount : ℚ
  sentiment_score : Option ℚ
  alpaca_order_id : String
  deriving DecidableEq

/-- Failure modes of the INSERT into `trades`. -/
inductive DbError where
  | duplicateOrderId : DbError
  | fault : DbError
  deriving DecidableEq

/-- Modelled from the spec: the `trades` table's DDL is not among the source
files; per spec section 6 it is append-only and unique on the broker order id,
so an INSERT for an order id already present violates the constraint and
raises. `dbFault` models any other database failure during the write. -/
def tryInsertTrade (db : List TradeRow) (row : TradeRow) (dbFault : Bool) :
    Except DbError (List TradeRow) :=
  if dbFault then .error .fault
  else if db.any (fun r => r.alpaca_order_id == row.alpaca_order_id) then
    .error .duplicateOrderId
  else .ok (db ++ [row])

/-- store_trade (main.py lines 245-260): skips the write when there is no
postgres connection; attempts the INSERT otherwise; every exception is caught
and only logged, so the call always returns normally and a failed write leaves
the table unchanged. -/
def store_trade (conn : Option (List TradeRow)) (dbFault : Bool) (row : TradeRow) :
    Option (List TradeRow) :=
  match conn with
  | none => none
  | some db =>
    match tryInsertTrade db row dbFault with
    | .ok db2 => some db2
    | .error _ => some db

/-- The order object returned by alpaca submit_order. -/
structure Order where
  id : String
  deriving DecidableEq

/-- The order-status object returned by alpaca get_order. -/
structure OrderStatus where
  id : String
  status : String
  deriving DecidableEq

/-- The external-world behaviour seen by one execute_trade call: the outcome of
each I/O interaction, where `.error` models a raised exception; `price` is
yfinance's regularMarketPrice (`.ok 0` when the field is missing); `conn` is
the current trades table (none when postgres is down). -/
structure ExecEnv where
  alpaca : Bool
  price : Except Unit ℚ
  submit : Except Unit Order
  getOrder : Except Unit OrderStatus
  dbFault : Bool
  conn : Option (List TradeRow)

/-- What one execute_trade call returns and effects: its return value, the
trades table afterwards, and how many submit_order calls it made. -/
structure ExecResult where
  ret : Option OrderStatus
  conn : Option (List TradeRow)
  submissions : ℕ
  deriving DecidableEq

/-- execute_trade (main.py lines 193-243): bail out without submitting when
alpaca is missing, the price fetch fails or returns 0, or the notional
`quantity * price` exceeds the per-symbol cap; otherwise submit once, fetch the
order status, store the trade, and return the status. Any exception after
submission is caught and turns into a none return with no stored trade. -/
def execute_trade (envio : ExecEnv) (cfg : TradingConfig) (env : EnvConfig)
    (symbol side : String) (quantity : ℤ) (sentiment : Option ℚ) : ExecResult :=
  if !envio.alpaca then ⟨none, envio.conn, 0⟩
  else
    match envio.price with
    | .error _ => ⟨none, envio.conn, 0⟩
    | .ok current_price =>
      if current_price = 0 then ⟨none, envio.conn, 0⟩
      else
        let total_amount := (quantity : ℚ) * current_price
        if maxPositionSizeFor cfg env symbol < total_amount then ⟨none, envio.conn, 0⟩
        else
          match envio.submit with
          | .error _ => ⟨none, envio.conn, 1⟩
          | .ok order =>
            match envio.getOrder with
            | .error _ => ⟨none, envio.conn, 1⟩
            | .ok st =>
              ⟨some st,
               store_trade envio.conn envio.dbFault
                 ⟨symbol, side, quantity, current_price, total_amount, sentiment, order.id⟩,
               1⟩

/-- A brokerage position, with the fields the trading loop reads. -/
structure Position where
  symbol : String
  quantity : ℤ
  deriving DecidableEq

/-- The outcome of one loop body: the trades table afterwards and the side and
quantity of each execute_trade invocation made. -/
structure SymOutcome where
  conn : Option (List TradeRow)
  calls : List (String × ℤ)
  deriving DecidableEq

/-- The per-symbol body of run_trading_bot (main.py lines 343-374). `priceOf`
is the loop's own yfinance fetch (line 358, `.ok 0` when the field is missing,
`.error` when the call raises); `execenv` gives the external-world behaviour of
the execute_trade invocation for each symbol, whose trades table is overridden
with the current one. An `.error` result is an exception escaping the body,
caught by the surrounding per-symbol handler. -/
def processSymbol (cfg : TradingConfig) (env : EnvConfig) (redis : Option RedisStore)
    (positions : List Position) (priceOf : String → Except Unit ℚ)
    (execenv : String → ExecEnv) (symbol : String) (db : Option (List TradeRow)) :
    Except Unit SymOutcome :=
  match aggregate_sentiment cfg redis symbol with
  | none => .ok ⟨db, []⟩
  | some score =>
    if thresholdFor cfg env symbol < score then
      if positions.any (fun p => p.symbol == symbol) then .ok ⟨db, []⟩
      else
        match priceOf symbol with
        | .error _ => .error ()
        | .ok current_price =>
          if 0 < current_price then
            let quantity := pyint (maxPositionSizeFor cfg env symbol / current_price)
            if 0 < quantity then
              .ok ⟨(execute_trade { execenv symbol with conn := db } cfg env symbol
                      "BUY" quantity (some score)).conn,
                   [("BUY", quantity)]⟩
            else .ok ⟨db, []⟩
          else .ok ⟨db, []⟩
    else
      if score < -thresholdFor cfg env symbol then
        if positions.any (fun p => p.symbol == symbol) then
          match positions.find? (fun p => p.symbol == symbol) with
          | none => .ok ⟨db, []⟩
          | some pos =>
            if 0 < pos.quantity then
              .ok ⟨(execute_trade { execenv symbol with conn := db } cfg env symbol
                      "SELL" pos.quantity (some score)).conn,
                   [("SELL", pos.quantity)]⟩
            else .ok ⟨db, []⟩
        else .ok ⟨db, []⟩
      else .ok ⟨db, []⟩

/-- The symbol loop (main.py lines 342-378): each body exception is caught by
the per-symbol handler and the loop continues with the next symbol, the trades
table unchanged for the failed one. -/
def loopSymbols (cfg : TradingConfig) (env : EnvConfig) (redis : Option RedisStore)
    (positions : List Position) (priceOf : String → Except Unit ℚ)
    (execenv : String → ExecEnv) (symbols : List String)
    (db : Option (List TradeRow)) : Option (List TradeRow) :=
  symbols.foldl (fun d sym =>
    match processSymbol cfg env redis positions priceOf execenv sym d with
    | .ok out => out.conn
    | .error _ => d) db

/-- What one cycle leaves behind: the trades table and whether the cycle
reached its closing update_portfolio_positions pass. -/
structure CycleResult where
  conn : Option (List TradeRow)
  reconciled : Bool
  deriving DecidableEq

/-- run_trading_bot (main.py lines 324-386): with no configured symbols the
cycle returns early (no reconciliation pass); otherwise it runs the symbol
loop and then always calls update_portfolio_positions. -/
def run_trading_bot (cfg : TradingConfig) (env : EnvConfig) (redis : Option RedisStore)
    (positions : List Position) (priceOf : String → Except Unit ℚ)
    (execenv : String → ExecEnv) (db : Option (List TradeRow)) : CycleResult :=
  let symbols := cfg.symbols.map Prod.fst
  if symbols.isEmpty then ⟨db, false⟩
  else ⟨loopSymbols cfg env redis positions priceOf execenv symbols db, true⟩

/-- Concrete config: the symbol AAPL has one configured source of weight 0. -/
def cfgC2 : TradingConfig :=
  ⟨[("AAPL", ⟨some [("twitter", 0)], none, none⟩)], []⟩

/-- Concrete cache: one well-formed observation for AAPL from twitter. -/
def storeC2 : RedisStore := fun sym src =>
  if sym == "AAPL" && src == "twitter" then [some (1/2)] else []

/-- Concrete config for the end-to-end aggregation scenario. -/
def cfgW2 : TradingConfig :=
  ⟨[("X", ⟨some [("a", 2/5), ("b", 3/10), ("c", 3/10)], none, none⟩)], []⟩

/-- Concrete cache for the end-to-end aggregation scenario: source a has
observations 0.8 and 0.6, b none, c one observation 0.5. -/
def storeW2 : RedisStore := fun sym src =>
  if sym == "X" && src == "a" then [some (4/5), some (3/5)]
  else if sym == "X" && src == "c" then [some (1/2)]
  else []

/-- Concrete cache with no observation at all. -/
def storeEmpty : RedisStore := fun _ _ => []

/-- Concrete external-world behaviour where every brokerage call succeeds. -/
def okExecEnv : ExecEnv :=
  ⟨true, .ok 9000, .ok ⟨"ord-w"⟩, .ok ⟨"ord-w", "filled"⟩, false, none⟩

/-- Concrete config: TSLA has its own cap 20000, above the global default. -/
def cfgC4 : TradingConfig :=
  ⟨[("TSLA", ⟨some [("news", 1)], some (1/2), some 20000⟩)], []⟩

/-- Concrete env defaults: global cap 10000, threshold 0.6. -/
def envD : EnvConfig := ⟨10000, 3/5⟩

/-- Concrete cache: one strong observation for TSLA. -/
def storeC4 : RedisStore := fun sym src =>
  if sym == "TSLA" && src == "news" then [some (9/10)] else []

/-- Concrete config: MSFT with a single unit-weight source and defaults. -/
def cfgW4 : TradingConfig :=
  ⟨[("MSFT", ⟨some [("news", 1)], none, none⟩)], []⟩

/-- Concrete cache: one strong observation for MSFT. -/
def storeW4 : RedisStore := fun sym src =>
  if sym == "MSFT" && src == "news" then [some (4/5)] else []

/-- Concrete config: X with threshold 0.6 and a single unit-weight source. -/
def cfgW5 : TradingConfig :=
  ⟨[("X", ⟨some [("a", 1)], some (3/5), none⟩)], []⟩

/-- Concrete cache: one observation for X exactly at the threshold 0.6. -/
def storeW5 : RedisStore := fun sym src =>
  if sym == "X" && src == "a" then [some (3/5)] else []

/-- Concrete config with two symbols A and B for the control-loop claim. -/
def cfgW8 : TradingConfig :=
  ⟨[("A", ⟨some [("a", 1)], some (1/2), none⟩), ("B", ⟨some [("a", 1)], some (1/2), none⟩)], []⟩

/-- Concrete cache: strong observations for both A and B. -/
def storeW8 : RedisStore := fun sym src =>
  if (sym == "A" || sym == "B") && src == "a" then [some (9/10)] else []

/-- Concrete price oracle: the fetch for A raises, the one for B succeeds. -/
def priceW8 : String → Except Unit ℚ := fun sym =>
  if sym == "A" then .error () else .ok 100

/-- Concrete config with no entry for MSFT but process-wide default weights. -/
def cfgC9 : TradingConfig := ⟨[], [("news", 1)]⟩

/-- Concrete cache: one observation for MSFT under the default source. -/
def storeC9 : RedisStore := fun sym src =>
  if sym == "MSFT" && src == "news" then [some (7/10)] else []

/-- Concrete config: X has an entry carrying only a threshold, so its weights,
and cap fall back to the process-wide defaults. -/
def cfgW9 : TradingConfig := ⟨[("X", ⟨none, some (1/2), none⟩)], [("news", 1)]⟩

/-- The source loop of aggregate_sentiment accumulates exactly the spec's two
sums on top of its starting accumulator. -/
lemma aggStep_foldl (store : RedisStore) (symbol : String) (ws : List (String × ℚ))
    (a b : ℚ) (c : ℕ) :
    (ws.foldl (aggStep store symbol) (a, b, c)).1 = a + specWeightedSum store symbol ws ∧
    (ws.foldl (aggStep store symbol) (a, b, c)).2.1 = b + specWeightSum store symbol ws := by
  induction ws generalizing a b c with
  | nil => simp [specWeightedSum, specWeightSum]
  | cons sw rest ih =>
    simp only [List.foldl_cons, aggStep, specWeightedSum, specWeightSum]
    by_cases h : (fetchedScores store symbol sw.1).isEmpty
    · simpa [h] using ih a b c
    · simpa [h, add_assoc] using ih (a + (fetchedScores store symbol sw.1).sum /
        ((fetchedScores store symbol sw.1).length : ℚ) * sw.2) (b + sw.2) (c + 1)

/-- aggregateWithWeights on given weights equals the spec's quotient when the
spec's weight sum is positive, and is none when it is not. -/
lemma aggregateWithWeights_eq (weights : List (String × ℚ)) (store : RedisStore)
    (symbol : String) :
    aggregateWithWeights weights store symbol =
      (if 0 < specWeightSum store symbol weights then
        some (specWeightedSum store symbol weights / specWeightSum store symbol weights)
      else none) := by
  have h := aggStep_foldl store symbol weights 0 0 0
  simp only [aggregateWithWeights, h.1, h.2, zero_add]

/-- Under hypotheses on the cache contents alone, every source weight sum
collapses to zero. -/
lemma specWeightSum_eq_zero (store : RedisStore) (symbol : String)
    (h : ∀ src, fetchedScores store symbol src = []) :
    ∀ ws, specWeightSum store symbol ws = 0 := by
  intro ws
  induction ws with
  | nil => rfl
  | cons sw rest ih => simp [specWeightSum, h sw.1, ih]

/-- C2: with an instrument whose configured sources hold a well-formed
observation only under a source of weight 0, the accumulated weight sum is 0
and aggregate_sentiment returns none rather than the claimed weighted score,
so the claim as stated fails: here AAPL's single configured source twitter has
weight 0 yet one well-formed observation. -/
theorem C2_counterexample :
    lookupSymbolCfg cfgC2 "AAPL" = some ⟨some [("twitter", 0)], none, none⟩ ∧
    fetchedScores storeC2 "AAPL" "twitter" = [1/2] ∧
    aggregate_sentiment cfgC2 (some storeC2) "AAPL" = none := by
  refine ⟨by simp +decide [lookupSymbolCfg, cfgC2], ?_, ?_⟩
  · simp +decide [fetchedScores, storeC2, List.filterMap_cons]
  · simp +decide [aggregate_sentiment, lookupSymbolCfg, cfgC2, SymbolConfig.isEmpty,
      aggregateWithWeights, aggStep, fetchedScores, storeC2, List.filterMap_cons]

/-- C2 (amended): for every instrument with a non-empty config entry whose
effective source weights sum to a positive value over the sources with at
least one well-formed observation (at most 50 fetched per source),
aggregate_sentiment returns exactly the spec's quotient
sum(source_score * weight) / sum(weight), both sums ranging only over sources
that produced at least one observation. -/
theorem C2_weighted_score (cfg : TradingConfig) (store : RedisStore) (symbol : String)
    (sc : SymbolConfig) (hsc : lookupSymbolCfg cfg symbol = some sc)
    (hne : sc.isEmpty = false)
    (hw : 0 < specWeightSum store symbol (sc.weights.getD cfg.sentiment_weights)) :
    aggregate_sentiment cfg (some store) symbol =
      some (specWeightedSum store symbol (sc.weights.getD cfg.sentiment_weights) /
            specWeightSum store symbol (sc.weights.getD cfg.sentiment_weights)) := by
  simp only [aggregate_sentiment, hsc, hne, Bool.false_eq_true, if_false,
    aggregateWithWeights_eq, if_pos hw]

/-- C2 witness: the end-to-end scenario of the spec, sources a and c
contributing, weight sum 0.7, weighted score 43/70 of the spec's sums. -/
theorem C2_weighted_score_witness :
    aggregate_sentiment cfgW2 (some storeW2) "X" =
      some (specWeightedSum storeW2 "X" [("a", 2/5), ("b", 3/10), ("c", 3/10)] /
            specWeightSum storeW2 "X" [("a", 2/5), ("b", 3/10), ("c", 3/10)]) := by
  have h := C2_weighted_score cfgW2 storeW2 "X" ⟨some [("a", 2/5), ("b", 3/10), ("c", 3/10)], none, none⟩
    (by simp +decide [lookupSymbolCfg, cfgW2])
    (by simp +decide [SymbolConfig.isEmpty])
    (by simp +decide [specWeightSum, fetchedScores, storeW2, List.filterMap_cons]; norm_num)
  simpa using h

/-- C3: if no source has any well-formed observation for the instrument, the
accumulated weight sum is 0 and aggregate_sentiment returns the distinguished
no-signal value none, never a numeric score. -/
theorem C3_no_signal (cfg : TradingConfig) (store : RedisStore) (symbol : String)
    (h : ∀ src, fetchedScores store symbol src = []) :
    aggregate_sentiment cfg (some store) symbol = none := by
  unfold aggregate_sentiment
  cases hl : lookupSymbolCfg cfg symbol with
  | none => rfl
  | some sc =>
    by_cases he : sc.isEmpty
    · simp [he]
    · simp only [he, Bool.false_eq_true, if_false,
        aggregateWithWeights_eq, specWeightSum_eq_zero store symbol h, lt_irrefl, if_false]

/-- C3 witness: an empty cache yields none for a configured instrument. -/
theorem C3_no_signal_witness :
    aggregate_sentiment cfgW2 (some storeEmpty) "X" = none := by
  exact C3_no_signal cfgW2 storeEmpty "X" (fun src => rfl)

/-- C1: persisting a trade is idempotent on the broker order id: with a
connection up, no infrastructure fault, and no existing row for the order id,
the first store_trade inserts exactly one row, the second is a no-op returning
normally (the duplicate-key error is swallowed), and exactly one row for that
order id remains. -/
theorem C1_store_trade_idempotent (db : List TradeRow) (row : TradeRow)
    (h : db.countP (fun r => r.alpaca_order_id == row.alpaca_order_id) = 0) :
    store_trade (some db) false row = some (db ++ [row]) ∧
    store_trade (some (db ++ [row])) false row = some (db ++ [row]) ∧
    (db ++ [row]).countP (fun r => r.alpaca_order_id == row.alpaca_order_id) = 1 := by
  have hall := List.countP_eq_zero.mp h
  have hany : db.any (fun r => r.alpaca_order_id == row.alpaca_order_id) = false := by
    rw [List.any_eq_false]
    intro x hx
    simpa using hall x hx
  refine ⟨?_, ?_, ?_⟩
  · simp [store_trade, tryInsertTrade, hany]
  · simp [store_trade, tryInsertTrade, List.any_append]
  · rw [List.countP_append, h]
    simp

/-- C1 witness: inserting an order id twice into an empty table leaves one row. -/
theorem C1_store_trade_idempotent_witness :
    store_trade (some []) false ⟨"AAPL", "BUY", 1, 150, 150, none, "ord-1"⟩ =
      some [⟨"AAPL", "BUY", 1, 150, 150, none, "ord-1"⟩] ∧
    store_trade (some [⟨"AAPL", "BUY", 1, 150, 150, none, "ord-1"⟩]) false
        ⟨"AAPL", "BUY", 1, 150, 150, none, "ord-1"⟩ =
      some [⟨"AAPL", "BUY", 1, 150, 150, none, "ord-1"⟩] ∧
    [(⟨"AAPL", "BUY", 1, 150, 150, none, "ord-1"⟩ : TradeRow)].countP
        (fun r => r.alpaca_order_id == "ord-1") = 1 := by
  have h := C1_store_trade_idempotent [] ⟨"AAPL", "BUY", 1, 150, 150, none, "ord-1"⟩ rfl
  simpa using h

/-- C6: the order executor re-validates notional against the per-instrument cap
(global default as fallback) at the freshly fetched price: whenever
quantity * price exceeds the cap, execute_trade returns the failure value none,
makes no submit_order call, and leaves the trades table untouched. -/
theorem C6_cap_revalidation (envio : ExecEnv) (cfg : TradingConfig) (env : EnvConfig)
    (symbol side : String) (quantity : ℤ) (sentiment : Option ℚ) (p : ℚ)
    (hp : envio.price = .ok p)
    (hcap : maxPositionSizeFor cfg env symbol < (quantity : ℚ) * p) :
    execute_trade envio cfg env symbol side quantity sentiment = ⟨none, envio.conn, 0⟩ := by
  unfold execute_trade
  rw [hp]
  dsimp only
  split_ifs <;> rfl

/-- C6 witness: quantity 3 at price 5000 against the default cap 10000. -/
theorem C6_cap_revalidation_witness :
    execute_trade ⟨true, .ok 5000, .ok ⟨"ord-2"⟩, .ok ⟨"ord-2", "filled"⟩, false, some []⟩
        ⟨[], []⟩ ⟨10000, 3/5⟩ "AAPL" "BUY" 3 none =
      ⟨none, some [], 0⟩ := by
  exact C6_cap_revalidation ⟨true, .ok 5000, .ok ⟨"ord-2"⟩, .ok ⟨"ord-2", "filled"⟩, false, some []⟩
    ⟨[], []⟩ ⟨10000, 3/5⟩ "AAPL" "BUY" 3 none 5000 rfl
    (by norm_num [maxPositionSizeFor, lookupSymbolCfg])

/-- C7: if order submission raises, execute_trade returns none, the trades
table is unchanged (no partial Trade record), and at most one submission
attempt is made in the cycle (no retry). -/
theorem C7_submit_failure (envio : ExecEnv) (cfg : TradingConfig) (env : EnvConfig)
    (symbol side : String) (quantity : ℤ) (sentiment : Option ℚ)
    (hsub : envio.submit = .error ()) :
    (execute_trade envio cfg env symbol side quantity sentiment).ret = none ∧
    (execute_trade envio cfg env symbol side quantity sentiment).conn = envio.conn ∧
    (execute_trade envio cfg env symbol side quantity sentiment).submissions ≤ 1 := by
  have key : execute_trade envio cfg env symbol side quantity sentiment = ⟨none, envio.conn, 0⟩ ∨
      execute_trade envio cfg env symbol side quantity sentiment = ⟨none, envio.conn, 1⟩ := by
    unfold execute_trade
    rw [hsub]
    split
    · exact Or.inl rfl
    · split
      · exact Or.inl rfl
      · dsimp only
        split_ifs
        · exact Or.inl rfl
        · exact Or.inl rfl
        · exact Or.inr rfl
  rcases key with h | h <;> rw [h] <;> exact ⟨rfl, rfl, by norm_num⟩

/-- C7 witness: a raising submission leaves the table unchanged and fails. -/
theorem C7_submit_failure_witness :
    (execute_trade ⟨true, .ok 100, .error (), .ok ⟨"ord-3", "filled"⟩, false, some []⟩
        ⟨[], []⟩ ⟨10000, 3/5⟩ "AAPL" "BUY" 3 none).ret = none ∧
    (execute_trade ⟨true, .ok 100, .error (), .ok ⟨"ord-3", "filled"⟩, false, some []⟩
        ⟨[], []⟩ ⟨10000, 3/5⟩ "AAPL" "BUY" 3 none).conn = some [] ∧
    (execute_trade ⟨true, .ok 100, .error (), .ok ⟨"ord-3", "filled"⟩, false, some []⟩
        ⟨[], []⟩ ⟨10000, 3/5⟩ "AAPL" "BUY" 3 none).submissions ≤ 1 := by
  exact C7_submit_failure ⟨true, .ok 100, .error (), .ok ⟨"ord-3", "filled"⟩, false, some []⟩
    ⟨[], []⟩ ⟨10000, 3/5⟩ "AAPL" "BUY" 3 none rfl

/-- C10: a successful execute_trade return does not guarantee a persisted
record: when submission and status fetch succeed but the database write
faults, the fault is swallowed, execute_trade still returns the order status,
and no Trade row is written. -/
theorem C10_swallowed_persist_failure (envio : ExecEnv) (cfg : TradingConfig)
    (env : EnvConfig) (symbol side : String) (quantity : ℤ) (sentiment : Option ℚ)
    (p : ℚ) (o : Order) (st : OrderStatus) (db : List TradeRow)
    (ha : envio.alpaca = true) (hp : envio.price = .ok p) (hp0 : ¬p = 0)
    (hcap : ¬maxPositionSizeFor cfg env symbol < (quantity : ℚ) * p)
    (hsub : envio.submit = .ok o) (hget : envio.getOrder = .ok st)
    (hfault : envio.dbFault = true) (hconn : envio.conn = some db) :
    execute_trade envio cfg env symbol side quantity sentiment = ⟨some st, some db, 1⟩ := by
  unfold execute_trade
  rw [ha, hp, hsub, hget, hfault, hconn]
  simp only [Bool.not_true, Bool.false_eq_true, if_false, if_neg hp0, if_neg hcap]
  simp [store_trade, tryInsertTrade]

/-- C10 witness: a faulting database write is invisible in the return value. -/
theorem C10_swallowed_persist_failure_witness :
    execute_trade ⟨true, .ok 100, .ok ⟨"ord-4"⟩, .ok ⟨"ord-4", "filled"⟩, true, some []⟩
        ⟨[], []⟩ ⟨10000, 3/5⟩ "AAPL" "BUY" 3 none =
      ⟨some ⟨"ord-4", "filled"⟩, some [], 1⟩ := by
  exact C10_swallowed_persist_failure
    ⟨true, .ok 100, .ok ⟨"ord-4"⟩, .ok ⟨"ord-4", "filled"⟩, true, some []⟩
    ⟨[], []⟩ ⟨10000, 3/5⟩ "AAPL" "BUY" 3 none 100 ⟨"ord-4"⟩ ⟨"ord-4", "filled"⟩ []
    rfl rfl (by norm_num) (by norm_num [maxPositionSizeFor, lookupSymbolCfg]) rfl rfl rfl rfl

/-- C5: threshold comparisons in the decision loop are strict: with a
(non-negative, per the spec domain) configured threshold, a score exactly at
the threshold or at its negation triggers no execute_trade call; a BUY call
can only arise from a score strictly above the threshold, a SELL call only
from a score strictly below its negation. -/
theorem C5_strict_threshold (cfg : TradingConfig) (env : EnvConfig) (redis : Option RedisStore)
    (positions : List Position) (priceOf : String → Except Unit ℚ) (execenv : String → ExecEnv)
    (symbol : String) (db : Option (List TradeRow)) (score : ℚ)
    (hagg : aggregate_sentiment cfg redis symbol = some score)
    (ht : 0 ≤ thresholdFor cfg env symbol) :
    ((score = thresholdFor cfg env symbol ∨ score = -thresholdFor cfg env symbol) →
      processSymbol cfg env redis positions priceOf execenv symbol db = .ok ⟨db, []⟩) ∧
    (∀ out, processSymbol cfg env redis positions priceOf execenv symbol db = .ok out →
      (∀ q, ("BUY", q) ∈ out.calls → thresholdFor cfg env symbol < score) ∧
      (∀ q, ("SELL", q) ∈ out.calls → score < -thresholdFor cfg env symbol)) := by
  constructor
  · intro h
    have h1 : ¬thresholdFor cfg env symbol < score := by
      rcases h with h | h
      · rw [h]
        exact lt_irrefl _
      · rw [h]
        intro hc
        linarith
    have h2 : ¬score < -thresholdFor cfg env symbol := by
      rcases h with h | h
      · rw [h]
        intro hc
        linarith
      · rw [h]
        exact lt_irrefl _
    unfold processSymbol
    rw [hagg]
    dsimp only
    rw [if_neg h1, if_neg h2]
  · intro out hout
    unfold processSymbol at hout
    rw [hagg] at hout
    dsimp only at hout
    by_cases hb : thresholdFor cfg env symbol < score
    · rw [if_pos hb] at hout
      refine ⟨fun q _ => hb, fun q hq => ?_⟩
      by_cases hany : positions.any (fun p => p.symbol == symbol) = true
      · rw [if_pos hany] at hout
        injection hout with h
        subst h
        simp at hq
      · rw [if_neg hany] at hout
        cases hpp : priceOf symbol with
        | error u =>
          rw [hpp] at hout
          exact Except.noConfusion hout
        | ok p =>
          rw [hpp] at hout
          dsimp only at hout
          split_ifs at hout
          all_goals injection hout with h
          all_goals subst h
          all_goals simp +decide at hq
    · rw [if_neg hb] at hout
      by_cases hs : score < -thresholdFor cfg env symbol
      · rw [if_pos hs] at hout
        refine ⟨fun q hq => ?_, fun q _ => hs⟩
        by_cases hany : positions.any (fun p => p.symbol == symbol) = true
        · rw [if_pos hany] at hout
          cases hfind : positions.find? (fun p => p.symbol == symbol) with
          | none =>
            rw [hfind] at hout
            dsimp only at hout
            injection hout with h
            subst h
            simp at hq
          | some pos =>
            rw [hfind] at hout
            dsimp only at hout
            split_ifs at hout
            all_goals injection hout with h
            all_goals subst h
            all_goals simp +decide at hq
        · rw [if_neg hany] at hout
          injection hout with h
          subst h
          simp at hq
      · rw [if_neg hs] at hout
        injection hout with h
        subst h
        exact ⟨fun q hq => by simp at hq, fun q hq => by simp at hq⟩

/-- C5 witness: X's aggregated score 0.6 equals its configured threshold 0.6
exactly, and no execute_trade call is made. -/
theorem C5_strict_threshold_witness :
    processSymbol cfgW5 envD (some storeW5) [] (fun _ => .ok 100) (fun _ => okExecEnv)
      "X" (some []) = .ok ⟨some [], []⟩ := by
  exact (C5_strict_threshold cfgW5 envD (some storeW5) [] (fun _ => .ok 100)
    (fun _ => okExecEnv) "X" (some []) (3/5)
    (by
      simp +decide [aggregate_sentiment, lookupSymbolCfg, cfgW5, SymbolConfig.isEmpty,
        aggregateWithWeights, aggStep, fetchedScores, storeW5, List.filterMap_cons]
      try norm_num)
    (by norm_num [thresholdFor, lookupSymbolCfg, cfgW5])).1
    (Or.inl (by norm_num [thresholdFor, lookupSymbolCfg, cfgW5]))

/-- C4: the claim's sizing formula min(per-symbol cap, global default)/price is
not what the code computes: with TSLA's own cap 20000 above the global default
10000 and price 9000, the loop issues a BUY of quantity 2 = floor(20000/9000),
while the claimed formula gives floor(min(20000,10000)/9000) = 1. -/
theorem C4_sizing_counterexample :
    (processSymbol cfgC4 envD (some storeC4) [] (fun _ => .ok 9000) (fun _ => okExecEnv)
        "TSLA" (some [])).map SymOutcome.calls = .ok [("BUY", 2)] ∧
    pyint (min (20000 : ℚ) 10000 / 9000) = 1 ∧ ¬((2 : ℤ) = 1) := by
  refine ⟨?_, by norm_num [pyint], by norm_num⟩
  have hagg : aggregate_sentiment cfgC4 (some storeC4) "TSLA" = some (9/10) := by
    simp +decide [aggregate_sentiment, lookupSymbolCfg, cfgC4, SymbolConfig.isEmpty,
      aggregateWithWeights, aggStep, fetchedScores, storeC4, List.filterMap_cons]
    try norm_num
  unfold processSymbol
  rw [hagg]
  dsimp only
  rw [if_pos (by norm_num [thresholdFor, lookupSymbolCfg, cfgC4] : thresholdFor cfgC4 envD "TSLA" < 9/10)]
  norm_num [pyint, maxPositionSizeFor, lookupSymbolCfg, cfgC4, Except.map]

/-- C4 (amended): on a BUY decision (score strictly above threshold, no
existing position, price fetched and positive) the order quantity is
floor(capFor(symbol)/price), where capFor is the per-symbol max_position_size
falling back to the global default (not the minimum of the two); a quantity of
0 or less means no execute_trade call at all. -/
theorem C4_buy_sizing (cfg : TradingConfig) (env : EnvConfig) (redis : Option RedisStore)
    (positions : List Position) (priceOf : String → Except Unit ℚ) (execenv : String → ExecEnv)
    (symbol : String) (db : Option (List TradeRow)) (score p : ℚ)
    (hagg : aggregate_sentiment cfg redis symbol = some score)
    (hb : thresholdFor cfg env symbol < score)
    (hany : positions.any (fun q => q.symbol == symbol) = false)
    (hp : priceOf symbol = .ok p) (hp0 : 0 < p) :
    (0 < pyint (maxPositionSizeFor cfg env symbol / p) →
      processSymbol cfg env redis positions priceOf execenv symbol db =
        .ok ⟨(execute_trade { execenv symbol with conn := db } cfg env symbol "BUY"
                (pyint (maxPositionSizeFor cfg env symbol / p)) (some score)).conn,
             [("BUY", pyint (maxPositionSizeFor cfg env symbol / p))]⟩) ∧
    (pyint (maxPositionSizeFor cfg env symbol / p) ≤ 0 →
      processSymbol cfg env redis positions priceOf execenv symbol db = .ok ⟨db, []⟩) := by
  unfold processSymbol
  rw [hagg]
  dsimp only
  rw [if_pos hb, hany]
  simp only [Bool.false_eq_true, if_false]
  rw [hp]
  dsimp only
  rw [if_pos hp0]
  constructor
  · intro hq
    rw [if_pos hq]
  · intro hq
    rw [if_neg (by omega)]

/-- C4 witness: global cap 10000 and price 333.34 give quantity 29, not 30. -/
theorem C4_buy_sizing_witness :
    pyint (maxPositionSizeFor cfgW4 envD "MSFT" / (16667/50)) = 29 ∧
    (processSymbol cfgW4 envD (some storeW4) [] (fun _ => .ok (16667/50)) (fun _ => okExecEnv)
        "MSFT" (some [])).map SymOutcome.calls = .ok [("BUY", 29)] := by
  have h29 : pyint (maxPositionSizeFor cfgW4 envD "MSFT" / (16667/50)) = 29 := by
    norm_num [pyint, maxPositionSizeFor, lookupSymbolCfg, cfgW4, envD]
  have h := (C4_buy_sizing cfgW4 envD (some storeW4) [] (fun _ => .ok (16667/50))
    (fun _ => okExecEnv) "MSFT" (some []) (4/5) (16667/50)
    (by
      simp +decide [aggregate_sentiment, lookupSymbolCfg, cfgW4, SymbolConfig.isEmpty,
        aggregateWithWeights, aggStep, fetchedScores, storeW4, List.filterMap_cons]
      try norm_num)
    (by norm_num [thresholdFor, lookupSymbolCfg, cfgW4, envD])
    rfl rfl (by norm_num)).1 (by rw [h29]; norm_num)
  refine ⟨h29, ?_⟩
  rw [h, h29]
  rfl

/-- C8: with at least one configured instrument, the cycle always reaches the
closing update_portfolio_positions pass, and a symbol whose body raises is
skipped with its state contribution dropped while the remaining symbols are
still processed from the state reached so far. -/
theorem C8_failure_isolation (cfg : TradingConfig) (env : EnvConfig) (redis : Option RedisStore)
    (positions : List Position) (priceOf : String → Except Unit ℚ) (execenv : String → ExecEnv)
    (db : Option (List TradeRow)) (h : cfg.symbols ≠ []) :
    (run_trading_bot cfg env redis positions priceOf execenv db).reconciled = true ∧
    (∀ pre x post d,
      cfg.symbols.map Prod.fst = pre ++ x :: post →
      processSymbol cfg env redis positions priceOf execenv x
        (loopSymbols cfg env redis positions priceOf execenv pre d) = .error () →
      loopSymbols cfg env redis positions priceOf execenv (pre ++ x :: post) d =
        loopSymbols cfg env redis positions priceOf execenv post
          (loopSymbols cfg env redis positions priceOf execenv pre d)) := by
  constructor
  · cases hcs : cfg.symbols with
    | nil => exact absurd hcs h
    | cons a t => simp [run_trading_bot, hcs]
  · intro pre x post d hmap herr
    unfold loopSymbols at herr ⊢
    rw [List.foldl_append, List.foldl_cons]
    congr 1
    dsimp only
    rw [herr]

/-- C8 witness: symbol A's price fetch raises, A contributes nothing, B is
still processed, and the reconciliation pass runs. -/
theorem C8_failure_isolation_witness :
    (run_trading_bot cfgW8 envD (some storeW8) [] priceW8 (fun _ => okExecEnv)
      (some [])).reconciled = true ∧
    loopSymbols cfgW8 envD (some storeW8) [] priceW8 (fun _ => okExecEnv) ["A", "B"] (some []) =
      loopSymbols cfgW8 envD (some storeW8) [] priceW8 (fun _ => okExecEnv) ["B"]
        (loopSymbols cfgW8 envD (some storeW8) [] priceW8 (fun _ => okExecEnv) [] (some [])) := by
  have h := C8_failure_isolation cfgW8 envD (some storeW8) [] priceW8 (fun _ => okExecEnv)
    (some []) (List.cons_ne_nil _ _)
  refine ⟨h.1, h.2 [] "A" ["B"] (some []) rfl ?_⟩
  have hagg : aggregate_sentiment cfgW8 (some storeW8) "A" = some (9/10) := by
    simp +decide [aggregate_sentiment, lookupSymbolCfg, cfgW8, SymbolConfig.isEmpty,
      aggregateWithWeights, aggStep, fetchedScores, storeW8, List.filterMap_cons]
    try norm_num
  show processSymbol cfgW8 envD (some storeW8) [] priceW8 (fun _ => okExecEnv) "A" (some []) =
    .error ()
  unfold processSymbol
  rw [hagg]
  dsimp only
  rw [if_pos (by norm_num [thresholdFor, lookupSymbolCfg, cfgW8, envD] :
    thresholdFor cfgW8 envD "A" < 9/10)]
  rfl

/-- C9: an instrument with no per-instrument config entry does not fall back to
the process-wide defaults for aggregation: MSFT has observations under the
default source weights and the default-weight aggregation would give 0.7, but
aggregate_sentiment returns no result at all. -/
theorem C9_missing_entry_counterexample :
    lookupSymbolCfg cfgC9 "MSFT" = none ∧
    aggregateWithWeights cfgC9.sentiment_weights storeC9 "MSFT" = some (7/10) ∧
    aggregate_sentiment cfgC9 (some storeC9) "MSFT" = none := by
  refine ⟨rfl, ?_, rfl⟩
  simp +decide [aggregateWithWeights, aggStep, fetchedScores, storeC9, cfgC9,
    List.filterMap_cons]
  try norm_num

/-- C9 (amended): field-by-field fallback holds for an instrument whose config
entry exists and is non-empty: absent weights fall back to the process-wide
sentiment weights, an absent threshold to the global default threshold, and an
absent cap to the global default cap; an instrument with no (or an empty)
entry instead gets no aggregation result. -/
theorem C9_field_fallback (cfg : TradingConfig) (env : EnvConfig) (symbol : String)
    (sc : SymbolConfig) (hsc : lookupSymbolCfg cfg symbol = some sc) :
    ((sc.isEmpty = false ∧ sc.weights = none) →
      ∀ store : RedisStore, aggregate_sentiment cfg (some store) symbol =
        aggregateWithWeights cfg.sentiment_weights store symbol) ∧
    (sc.sentiment_threshold = none → thresholdFor cfg env symbol = env.sentiment_threshold) ∧
    (sc.max_position_size = none → maxPositionSizeFor cfg env symbol = env.max_position_size) := by
  refine ⟨?_, ?_, ?_⟩
  · intro hw store
    unfold aggregate_sentiment
    rw [hsc]
    dsimp only
    rw [hw.1]
    simp only [Bool.false_eq_true, if_false, hw.2, Option.getD_none]
  · intro htn
    unfold thresholdFor
    rw [hsc]
    dsimp only
    rw [htn]
    rfl
  · intro hcn
    unfold maxPositionSizeFor
    rw [hsc]
    dsimp only
    rw [hcn]
    rfl

/-- C9 witness: X's entry has only a threshold; its aggregation uses the
process-wide default weights and its cap is the global default. -/
theorem C9_field_fallback_witness :
    aggregate_sentiment cfgW9 (some storeC9) "X" =
      aggregateWithWeights cfgW9.sentiment_weights storeC9 "X" ∧
    maxPositionSizeFor cfgW9 envD "X" = envD.max_position_size := by
  have h := C9_field_fallback cfgW9 envD "X" ⟨none, some (1/2), none⟩ rfl
  exact ⟨h.1 ⟨rfl, rfl⟩ storeC9, h.2.2 rfl⟩
